import Mathlib

/-!
Verification of the Open-FEM2D-Studio solver backend core
(`model_builder.py`, `result_extractor.py`, `beam_interpolation.py`)
against its natural-language specification.

The Python code is shallowly embedded over exact rationals.  The external
OpenSees engine is modelled as an abstract oracle (`EngineState`): the
embedding covers the translation layer only, exactly as the spec scopes it.
The transcendental geometry helpers (`math.sqrt`, `math.cos`/`math.sin` of
`math.atan2`) are abstracted as an arbitrary function record `Geo`; all
theorems hold for every interpretation of these functions.
-/

namespace OpenFEM

/-! ### Abstract geometry oracle

`_beam_geometry` in `model_builder.py` computes `L = sqrt(dx^2+dy^2)` and
`angle = atan2(dy, dx)`; the code only ever uses `cos angle` and `sin angle`.
These three real-valued maps of `(dx, dy)` are abstracted as uninterpreted
rational functions. -/

structure Geo where
  len : ℚ → ℚ → ℚ
  cosA : ℚ → ℚ → ℚ
  sinA : ℚ → ℚ → ℚ

/-! ### Station interpolation (`beam_interpolation.py`) -/

/-- Default station count, `NUM_STATIONS = 21`. -/
def NUM_STATIONS : ℕ := 21

/-- Branch of `interpolate_stations` for `x < a` (before the loaded region):
`N = N1`, `V = V1`, `M = M1 + V1*x`. -/
def beforeForces (N1 V1 M1 : ℚ) (x : ℚ) : ℚ × ℚ × ℚ :=
  (N1, V1, M1 + V1 * x)

/-- Branch of `interpolate_stations` for `a ≤ x ≤ b` (inside the loaded
region), with `xi = x - a`. -/
def insideForces (N1 V1 M1 qx qy a : ℚ) (x : ℚ) : ℚ × ℚ × ℚ :=
  let xi := x - a
  (N1 + qx * xi, V1 + qy * xi, M1 + V1 * x + qy * xi * xi / 2)

/-- Branch of `interpolate_stations` for `x > b` (after the loaded region),
with `load_len = b - a`. -/
def afterForces (N1 V1 M1 qx qy a b : ℚ) (x : ℚ) : ℚ × ℚ × ℚ :=
  let loadLen := b - a
  (N1 + qx * loadLen, V1 + qy * loadLen,
    M1 + V1 * x + qy * loadLen * (x - a - loadLen / 2))

/-- The per-station body of the loop in `interpolate_stations`
(lines 44-64 of `beam_interpolation.py`): `if x < a` / `elif x <= b` /
`else`. -/
def forcesAt (N1 V1 M1 qx qy a b : ℚ) (x : ℚ) : ℚ × ℚ × ℚ :=
  if x < a then beforeForces N1 V1 M1 x
  else if x ≤ b then insideForces N1 V1 M1 qx qy a x
  else afterForces N1 V1 M1 qx qy a b x

/-- The four lists built by the loop of `interpolate_stations`, assuming the
division `i / (num_stations - 1)` is defined.  `x = (i/(num-1))*L`, and the
three force lists apply `forcesAt` at each station. -/
def stationData (N1 V1 M1 L qx qy startT endT : ℚ) (numStations : ℕ) :
    List ℚ × List ℚ × List ℚ × List ℚ :=
  let a := startT * L
  let b := endT * L
  let d : ℚ := (numStations : ℚ) - 1
  let xs := (List.range numStations).map (fun i : ℕ => ((i : ℚ) / d) * L)
  (xs,
    xs.map (fun x => (forcesAt N1 V1 M1 qx qy a b x).1),
    xs.map (fun x => (forcesAt N1 V1 M1 qx qy a b x).2.1),
    xs.map (fun x => (forcesAt N1 V1 M1 qx qy a b x).2.2))

/-- `interpolate_stations` of `beam_interpolation.py`.  The loop body divides
by `num_stations - 1`; in Python this raises `ZeroDivisionError` exactly when
the loop runs with `num_stations = 1` (for `num_stations = 0` the loop body
never executes, so no division happens).  The failure is modelled as `none`
under the guard `(numStations : ℚ) - 1 = 0`, which holds iff
`numStations = 1`. -/
def interpolate_stations (N1 V1 M1 L qx qy startT endT : ℚ)
    (numStations : ℕ) : Option (List ℚ × List ℚ × List ℚ × List ℚ) :=
  if ((numStations : ℚ) - 1) = 0 then none
  else some (stationData N1 V1 M1 L qx qy startT endT numStations)

/-! ### Equivalent load synthesis (`model_builder.py`, helpers) -/

/-- A 6-component force vector `[v0 .. v5]`, standing for the Python lists
`[Fx1, Fy1, M1, Fx2, Fy2, M2]` (or raw end forces `[N1, V1, M1, N2, V2, M2]`
on the extraction side). -/
structure Vec6 where
  v0 : ℚ
  v1 : ℚ
  v2 : ℚ
  v3 : ℚ
  v4 : ℚ
  v5 : ℚ
deriving DecidableEq

/-- `_hermite_integrals(La, Lb, L)`: the four cubic Hermite shape-function
antiderivatives evaluated at `Lb` and `La` and differenced. -/
def hermite_integrals (La Lb L : ℚ) : ℚ × ℚ × ℚ × ℚ :=
  let f1 := fun x : ℚ => x - x ^ 3 / (L * L) + x ^ 4 / (2 * L ^ 3)
  let f2 := fun x : ℚ => x ^ 2 / 2 - 2 * x ^ 3 / (3 * L) + x ^ 4 / (4 * L ^ 2)
  let f3 := fun x : ℚ => x ^ 3 / (L * L) - x ^ 4 / (2 * L ^ 3)
  let f4 := fun x : ℚ => -(x ^ 3) / (3 * L) + x ^ 4 / (4 * L ^ 2)
  (f1 Lb - f1 La, f2 Lb - f2 La, f3 Lb - f3 La, f4 Lb - f4 La)

/-- The equivalent-nodal-force synthesizer `_partial_equivalent_forces` of
`model_builder.py` (renamed here): equivalent local end forces for a
distributed load over the sub-span `[startT*L, endT*L]`. -/
def subspan_equivalent_forces (L qx qy startT endT : ℚ) : Vec6 :=
  let a := startT
  let b := endT
  let span := (b - a) * L
  let La := a * L
  let Lb := b * L
  let ints := hermite_integrals La Lb L
  let intL1 := span * (1 - (a + b) / 2)
  let intL2 := span * (a + b) / 2
  ⟨qx * intL1, qy * ints.1, qy * ints.2.1,
    qx * intL2, qy * ints.2.2.1, qy * ints.2.2.2⟩

/-- `_transform_local_to_global(f, angle)` with `c = cos angle`,
`s = sin angle` supplied directly (the Python function computes them from
the angle; the embedding receives them from the `Geo` oracle). -/
def transform_local_to_global (c s : ℚ) (f : Vec6) : Vec6 :=
  ⟨c * f.v0 - s * f.v1, s * f.v0 + c * f.v1, f.v2,
    c * f.v3 - s * f.v4, s * f.v3 + c * f.v4, f.v5⟩

/-! ### Request schema (the JSON payload, §3 of the spec)

Identifiers are natural numbers ("Node and beam IDs start from 1 and
increment" per the application's own command schema).  Optional JSON fields
with `dict.get` fallbacks become fields with the corresponding defaults. -/

structure Constraints where
  x : Bool := false
  y : Bool := false
  rotation : Bool := false
deriving DecidableEq

structure Springs where
  kx : ℚ := 0
  ky : ℚ := 0
  kr : ℚ := 0
deriving DecidableEq

structure NodeLoads where
  fx : ℚ := 0
  fy : ℚ := 0
  moment : ℚ := 0
deriving DecidableEq

structure Node where
  id : ℕ
  x : ℚ
  y : ℚ
  constraints : Constraints := {}
  springs : Springs := {}
  loads : NodeLoads := {}
deriving DecidableEq

structure Material where
  id : ℕ
  E : ℚ
deriving DecidableEq

/-- The inline `section` object of a beam (`A`, `I`). -/
structure Sec where
  A : ℚ
  I : ℚ
deriving DecidableEq

structure EndReleases where
  startMoment : Bool := false
  endMoment : Bool := false
deriving DecidableEq

/-- `distributedLoad` payload; `coordGlobal` models
`coordSystem == "global"`. -/
structure DistLoad where
  qx : ℚ := 0
  qy : ℚ := 0
  startT : ℚ := 0
  endT : ℚ := 1
  coordGlobal : Bool := false
deriving DecidableEq

structure Beam where
  id : ℕ
  node1 : ℕ
  node2 : ℕ
  materialId : ℕ
  sec : Sec
  endReleases : EndReleases := {}
  distributedLoad : Option DistLoad := none
deriving DecidableEq

structure Input where
  nodes : List Node
  beams : List Beam
  materials : List Material
  geometricNonlinear : Bool := false
deriving DecidableEq

/-- Python dict comprehension `{n["id"]: n for n in ...}`: on duplicate keys
the last entry wins, hence the lookup searches the reversed list. -/
def lookupNode (ns : List Node) (i : ℕ) : Option Node :=
  ns.reverse.find? (fun n => n.id == i)

/-- `materials_by_id` lookup, same last-wins semantics. -/
def lookupMaterial (ms : List Material) (i : ℕ) : Option Material :=
  ms.reverse.find? (fun m => m.id == i)

/-- `max(n["id"] for n in data["nodes"])`; over ℕ ids, folding from 0 agrees
with Python `max` on every nonempty list. -/
def maxNodeId (ns : List Node) : ℕ :=
  (ns.map Node.id).foldl max 0

/-! ### Engine-call trace (`model_builder.py`)

Every `ops.*` entity-creation call of `build_model` becomes one `Entity`
value, emitted in program order.  `ops.wipe()` / `ops.model(...)` are
initialisation, not entity emission, and are not traced. -/

inductive Entity where
  | node (tag : ℕ) (x y : ℚ)
  | fix (tag : ℕ) (fx fy fr : Bool)
  | uniaxialMaterial (tag : ℕ) (k : ℚ)
  | zeroLength (tag gnd nodeTag : ℕ)
  | geomTransf (pdelta : Bool)
  | equalDOF (master follower : ℕ)
  | element (tag n1 n2 : ℕ) (A E I : ℚ)
  | timeSeriesConstant
  | patternPlain
  | load (tag : ℕ) (fx fy mz : ℚ)
  | eleLoad (tag : ℕ) (wy wx : ℚ)
deriving DecidableEq

/-- Python-level failures of `build_model`: `ValueError` from `max()` on an
empty node list, and `KeyError` from the `materials_by_id` / `nodes_by_id`
dictionary lookups. -/
inductive BuildErr where
  | emptyNodes
  | missingMaterial (beamId matId : ℕ)
  | missingNode (beamId nodeId : ℕ)
deriving DecidableEq

/-- Builder state: emitted entities in order, the `_IdCounter` for internal
node/element tags, the `_IdCounter(8000)` for spring materials, and `aux`,
a ghost record of every value the internal counter has handed out (the
auxiliary identifiers of the spec). -/
structure BState where
  emitted : List Entity
  counter : ℕ
  matCounter : ℕ
  aux : List ℕ
deriving DecidableEq

def emit (e : Entity) (st : BState) : BState :=
  { st with emitted := st.emitted ++ [e] }

/-- `counter.next()`: pre-increment and return.  The returned tag is also
recorded in the ghost `aux` list. -/
def next (st : BState) : ℕ × BState :=
  (st.counter + 1,
    { st with counter := st.counter + 1, aux := st.aux ++ [st.counter + 1] })

/-- `spring_mat_counter.next()`. -/
def matNext (st : BState) : ℕ × BState :=
  (st.matCounter + 1, { st with matCounter := st.matCounter + 1 })

/-- Step 1 of `build_model`: `ops.node(n["id"], n["x"], n["y"])` per node. -/
def emitNodes : List Node → BState → BState
  | [], st => st
  | n :: rest, st => emitNodes rest (emit (.node n.id n.x n.y) st)

/-- Step 2: `ops.fix` per node whose constraint flags are not all free. -/
def emitConstraints : List Node → BState → BState
  | [], st => st
  | n :: rest, st =>
    let c := n.constraints
    if c.x || c.y || c.rotation then
      emitConstraints rest (emit (.fix n.id c.x c.y c.rotation) st)
    else
      emitConstraints rest st

/-- Per-axis spring stiffness: the given value when positive, otherwise the
rigid substitute `1e20` (`ops.uniaxialMaterial("Elastic", mt, 1e20)`). -/
def springStiff (k : ℚ) : ℚ :=
  if 0 < k then k else 1e20

/-- Step 3 body for one node: ground node, full fixity, three elastic
materials, zero-length element — only when some spring stiffness is
positive. -/
def emitSpringsForNode (n : Node) (st : BState) : BState :=
  let s := n.springs
  if 0 < s.kx ∨ 0 < s.ky ∨ 0 < s.kr then
    let p1 := next st
    let gnd := p1.1
    let st := emit (.node gnd n.x n.y) p1.2
    let st := emit (.fix gnd true true true) st
    let q1 := matNext st
    let st := emit (.uniaxialMaterial q1.1 (springStiff s.kx)) q1.2
    let q2 := matNext st
    let st := emit (.uniaxialMaterial q2.1 (springStiff s.ky)) q2.2
    let q3 := matNext st
    let st := emit (.uniaxialMaterial q3.1 (springStiff s.kr)) q3.2
    let p2 := next st
    emit (.zeroLength p2.1 gnd n.id) p2.2
  else st

/-- Step 3: the spring loop over all nodes. -/
def emitSprings : List Node → BState → BState
  | [], st => st
  | n :: rest, st => emitSprings rest (emitSpringsForNode n st)

/-- End-release duplicate node (step 5): `dup = counter.next()` happens
before the `nodes_by_id[...]` lookup that may raise `KeyError`. -/
def allocReleaseNode (lookN : ℕ → Option Node) (beamId nodeId : ℕ)
    (st : BState) : BState × Except BuildErr ℕ :=
  let p := next st
  match lookN nodeId with
  | none => (p.2, .error (.missingNode beamId nodeId))
  | some nd =>
    let st := emit (.node p.1 nd.x nd.y) p.2
    let st := emit (.equalDOF nodeId p.1) st
    (st, .ok p.1)

/-- Release handling for one beam end: when the release flag is set,
allocate the duplicate; otherwise the element keeps the original node. -/
def withRelease (lookN : ℕ → Option Node) (flag : Bool) (beamId nodeId : ℕ)
    (st : BState) : BState × Except BuildErr ℕ :=
  if flag then allocReleaseNode lookN beamId nodeId st
  else (st, .ok nodeId)

/-- Second half of the step-5 body: end release, then the
`elasticBeamColumn` element with the beam's own id as element tag. -/
def processBeamEnd (lookN : ℕ → Option Node) (b : Beam) (mat : Material)
    (actual1 : ℕ) (st : BState) : BState × Option BuildErr :=
  match withRelease lookN b.endReleases.endMoment b.id b.node2 st with
  | (st2, .error e) => (st2, some e)
  | (st2, .ok actual2) =>
    (emit (.element b.id actual1 actual2 b.sec.A mat.E b.sec.I) st2, none)

/-- Step 5 body for one beam: material lookup (KeyError point), optional
release duplicates, then the element emission. -/
def processBeam (lookN : ℕ → Option Node) (lookM : ℕ → Option Material)
    (b : Beam) (st : BState) : BState × Option BuildErr :=
  match lookM b.materialId with
  | none => (st, some (.missingMaterial b.id b.materialId))
  | some mat =>
    match withRelease lookN b.endReleases.startMoment b.id b.node1 st with
    | (st1, .error e) => (st1, some e)
    | (st1, .ok actual1) => processBeamEnd lookN b mat actual1 st1

/-- Step 5: the beam loop, aborting at the first Python exception. -/
def processBeams (lookN : ℕ → Option Node) (lookM : ℕ → Option Material) :
    List Beam → BState → BState × Option BuildErr
  | [], st => (st, none)
  | b :: rest, st =>
    match processBeam lookN lookM b st with
    | (st, some e) => (st, some e)
    | (st, none) => processBeams lookN lookM rest st

/-- Step 6a: nodal point loads (only when some component is nonzero). -/
def emitNodalLoads : List Node → BState → BState
  | [], st => st
  | n :: rest, st =>
    let l := n.loads
    if l.fx ≠ 0 ∨ l.fy ≠ 0 ∨ l.moment ≠ 0 then
      emitNodalLoads rest (emit (.load n.id l.fx l.fy l.moment) st)
    else
      emitNodalLoads rest st

/-- Lines 276-288 of `model_builder.py`: the entities emitted for one
beam's distributed load once the node lookups have succeeded and the local
intensities are known.  Full-span route (`startT <= 0 and endT >= 1`) emits
the native `eleLoad` (argument order `(Wy, Wx)`); otherwise the synthesizer
result is rotated to global coordinates and emitted as two point loads. -/
def distLoadEmissions (geo : Geo) (n1 n2 : Node) (b : Beam) (dl : DistLoad) :
    List Entity :=
  let dx := n2.x - n1.x
  let dy := n2.y - n1.y
  let L := geo.len dx dy
  let c := geo.cosA dx dy
  let s := geo.sinA dx dy
  let qxl := if dl.coordGlobal then dl.qx * c + dl.qy * s else dl.qx
  let qyl := if dl.coordGlobal then -dl.qx * s + dl.qy * c else dl.qy
  if dl.startT ≤ 0 ∧ 1 ≤ dl.endT then
    [.eleLoad b.id qyl qxl]
  else
    let lf := subspan_equivalent_forces L qxl qyl dl.startT dl.endT
    let gf := transform_local_to_global c s lf
    [.load b.node1 gf.v0 gf.v1 gf.v2, .load b.node2 gf.v3 gf.v4 gf.v5]

/-- Step 6b body for one distributed load: skip when both intensities are
zero; the two `nodes_by_id` lookups are KeyError points. -/
def processDistLoad (geo : Geo) (lookN : ℕ → Option Node) (b : Beam)
    (dl : DistLoad) (st : BState) : BState × Option BuildErr :=
  if dl.qx = 0 ∧ dl.qy = 0 then (st, none)
  else
    match lookN b.node1 with
    | none => (st, some (.missingNode b.id b.node1))
    | some n1 =>
      match lookN b.node2 with
      | none => (st, some (.missingNode b.id b.node2))
      | some n2 =>
        ((distLoadEmissions geo n1 n2 b dl).foldl (fun s e => emit e s) st,
          none)

/-- Step 6b body for one beam: skip when there is no distributed load. -/
def processBeamLoad (geo : Geo) (lookN : ℕ → Option Node) (b : Beam)
    (st : BState) : BState × Option BuildErr :=
  match b.distributedLoad with
  | none => (st, none)
  | some dl => processDistLoad geo lookN b dl st

/-- Step 6b: the distributed-load loop. -/
def processBeamLoads (geo : Geo) (lookN : ℕ → Option Node) :
    List Beam → BState → BState × Option BuildErr
  | [], st => (st, none)
  | b :: rest, st =>
    match processBeamLoad geo lookN b st with
    | (st, some e) => (st, some e)
    | (st, none) => processBeamLoads geo lookN rest st

/-- Steps 1-4 of `build_model`: nodes, boundary conditions, spring supports,
geometric transformation, starting from the fresh state whose internal
counter is `_IdCounter(max(node ids) * 100)`. -/
def preBeamState (inp : Input) : BState :=
  emit (.geomTransf inp.geometricNonlinear)
    (emitSprings inp.nodes
      (emitConstraints inp.nodes
        (emitNodes inp.nodes ⟨[], 100 * maxNodeId inp.nodes, 8000, []⟩)))

/-- Step 6 of `build_model`: time series, load pattern, nodal loads,
distributed loads. -/
def loadPhase (geo : Geo) (inp : Input) (st : BState) :
    BState × Option BuildErr :=
  processBeamLoads geo (lookupNode inp.nodes) inp.beams
    (emitNodalLoads inp.nodes (emit .patternPlain (emit .timeSeriesConstant st)))

/-- `build_model` of `model_builder.py` as an engine-call-trace transformer:
returns the entities emitted (in order) and the Python exception aborting
assembly, if any.  `max()` on an empty node list is a `ValueError` before
anything is emitted. -/
def build_model (geo : Geo) (inp : Input) : BState × Option BuildErr :=
  if inp.nodes.isEmpty then (⟨[], 0, 8000, []⟩, some .emptyNodes)
  else
    match processBeams (lookupNode inp.nodes) (lookupMaterial inp.materials)
        inp.beams (preBeamState inp) with
    | (st, some e) => (st, some e)
    | (st, none) => loadPhase geo inp st

/-! ### Result extraction (`result_extractor.py`)

The solved engine is an abstract oracle: per-node displacement and reaction
triples, and per-element raw end forces `[N1, V1, M1, N2, V2, M2]`. -/

structure EngineState where
  nodeDisp : ℕ → ℚ × ℚ × ℚ
  nodeReaction : ℕ → ℚ × ℚ × ℚ
  eleForce : ℕ → Vec6

/-- The per-beam force record of the response (`beam_forces[str(id)]`). -/
structure BeamForces where
  N1 : ℚ
  V1 : ℚ
  M1 : ℚ
  N2 : ℚ
  V2 : ℚ
  M2 : ℚ
  stations : List ℚ
  normalForce : List ℚ
  shearForce : List ℚ
  bendingMoment : List ℚ
  maxN : ℚ
  maxV : ℚ
  maxM : ℚ
deriving DecidableEq

/-- Python `max(xs, default=d)`: the default only applies to the empty
list. -/
def pyMax (l : List ℚ) (dflt : ℚ) : ℚ :=
  match l with
  | [] => dflt
  | x :: xs => xs.foldl max x

/-- `max((abs(v) for v in l), default=1e-10)` followed by
`max(·, 1e-10)`. -/
def maxAbsFloored (l : List ℚ) : ℚ :=
  max (pyMax (l.map (fun v => |v|)) 1e-10) 1e-10

/-- Lines 72-92 of `result_extractor.py`: local intensities and fractional
span of the beam's distributed load (defaults `0, 0, 0, 1`), rotating
global-frame intensities into the local frame when requested. -/
def localLoadParams (geo : Geo) (dx dy : ℚ) (odl : Option DistLoad) :
    ℚ × ℚ × ℚ × ℚ :=
  match odl with
  | none => (0, 0, 0, 1)
  | some dl =>
    let c := geo.cosA dx dy
    let s := geo.sinA dx dy
    let qxl := if dl.coordGlobal then dl.qx * c + dl.qy * s else dl.qx
    let qyl := if dl.coordGlobal then -dl.qx * s + dl.qy * c else dl.qy
    (qxl, qyl, dl.startT, dl.endT)

/-- The two `nodes_by_id[...]` lookups for a beam's end nodes. -/
def lookupPair (lookN : ℕ → Option Node) (b : Beam) : Option (Node × Node) :=
  match lookN b.node1, lookN b.node2 with
  | some n1, some n2 => some (n1, n2)
  | _, _ => none

/-- The per-beam body of `extract_results` (lines 52-122): sign-convention
correction of the raw engine end forces, geometry, load parameters, station
interpolation at the default 21 stations, and floored per-quantity maxima.
`none` models the Python exception paths (missing node in the metadata
dictionary, or the interpolation failure). -/
def beamRecord (geo : Geo) (es : EngineState) (lookN : ℕ → Option Node)
    (b : Beam) : Option BeamForces :=
  let raw := es.eleForce b.id
  let N1 := raw.v0
  let V1 := raw.v1
  let M1 := -raw.v2
  let N2 := -raw.v3
  let V2 := -raw.v4
  let M2 := raw.v5
  match lookupPair lookN b with
  | none => none
  | some (n1, n2) =>
    let dx := n2.x - n1.x
    let dy := n2.y - n1.y
    let L := geo.len dx dy
    let params := localLoadParams geo dx dy b.distributedLoad
    match interpolate_stations N1 V1 M1 L params.1 params.2.1 params.2.2.1
        params.2.2.2 NUM_STATIONS with
    | none => none
    | some (sts, nf, sf, bm) =>
      some ⟨N1, V1, M1, N2, V2, M2, sts, nf, sf, bm,
        maxAbsFloored nf, maxAbsFloored sf, maxAbsFloored bm⟩

/-- The JSON response on success. -/
structure Response where
  displacements : List ℚ
  reactions : List ℚ
  beamForces : List (ℕ × BeamForces)
  nodeIdOrder : List ℕ

/-- `extract_results`: displacements and reactions flattened in caller node
order, plus one force record per beam (element tags are the beam ids). -/
def extract_results (geo : Geo) (es : EngineState) (nodeIdOrder : List ℕ)
    (lookN : ℕ → Option Node) (beams : List Beam) : Option Response :=
  let disp := (nodeIdOrder.map (fun nid =>
    [(es.nodeDisp nid).1, (es.nodeDisp nid).2.1, (es.nodeDisp nid).2.2])).flatten
  let reac := (nodeIdOrder.map (fun nid =>
    [(es.nodeReaction nid).1, (es.nodeReaction nid).2.1,
      (es.nodeReaction nid).2.2])).flatten
  match beams.mapM (fun b =>
      (beamRecord geo es lookN b).map (fun r => (b.id, r))) with
  | none => none
  | some bf => some ⟨disp, reac, bf, nodeIdOrder⟩

/-! ### Helper lemmas -/

lemma getD_map_range (f : ℕ → ℚ) (n i : ℕ) (h : i < n) :
    ((List.range n).map f).getD i 0 = f i := by
  simp [List.getD_eq_getElem?_getD, List.getElem?_map, List.getElem?_range, h]

lemma stationData_lengths (N1 V1 M1 L qx qy sT eT : ℚ) (n : ℕ) :
    (stationData N1 V1 M1 L qx qy sT eT n).1.length = n ∧
    (stationData N1 V1 M1 L qx qy sT eT n).2.1.length = n ∧
    (stationData N1 V1 M1 L qx qy sT eT n).2.2.1.length = n ∧
    (stationData N1 V1 M1 L qx qy sT eT n).2.2.2.length = n := by
  simp only [stationData, List.length_map, List.length_range]
  refine ⟨?_, ?_, ?_, ?_⟩ <;> trivial

lemma stationData_getD (N1 V1 M1 L qx qy sT eT : ℚ) (n i : ℕ) (hi : i < n) :
    (stationData N1 V1 M1 L qx qy sT eT n).1.getD i 0 =
      ((i : ℚ) / ((n : ℚ) - 1)) * L ∧
    (stationData N1 V1 M1 L qx qy sT eT n).2.1.getD i 0 =
      (forcesAt N1 V1 M1 qx qy (sT * L) (eT * L)
        (((i : ℚ) / ((n : ℚ) - 1)) * L)).1 ∧
    (stationData N1 V1 M1 L qx qy sT eT n).2.2.1.getD i 0 =
      (forcesAt N1 V1 M1 qx qy (sT * L) (eT * L)
        (((i : ℚ) / ((n : ℚ) - 1)) * L)).2.1 ∧
    (stationData N1 V1 M1 L qx qy sT eT n).2.2.2.getD i 0 =
      (forcesAt N1 V1 M1 qx qy (sT * L) (eT * L)
        (((i : ℚ) / ((n : ℚ) - 1)) * L)).2.2 := by
  simp only [stationData]
  rw [List.map_map, List.map_map, List.map_map]
  exact ⟨getD_map_range _ _ _ hi, getD_map_range _ _ _ hi,
    getD_map_range _ _ _ hi, getD_map_range _ _ _ hi⟩

lemma le_foldl_max {α : Type} [LinearOrder α] (l : List α) (b : α) :
    b ≤ l.foldl max b := by
  induction l generalizing b with
  | nil => exact le_refl b
  | cons x xs ih => exact le_trans (le_max_left b x) (ih (max b x))

lemma mem_le_foldl_max {α : Type} [LinearOrder α] {x : α} (l : List α)
    (b : α) (hx : x ∈ l) :
    x ≤ l.foldl max b := by
  induction l generalizing b with
  | nil => cases hx
  | cons y ys ih =>
    rcases List.mem_cons.mp hx with h | h
    · subst h
      exact le_trans (le_max_right b x) (le_foldl_max ys (max b x))
    · exact ih (max b y) h

lemma mem_le_pyMax {x : ℚ} (l : List ℚ) (d : ℚ) (hx : x ∈ l) :
    x ≤ pyMax l d := by
  cases l with
  | nil => cases hx
  | cons y ys =>
    rcases List.mem_cons.mp hx with h | h
    · subst h; exact le_foldl_max ys x
    · exact mem_le_foldl_max ys y h

lemma abs_le_maxAbsFloored {v : ℚ} (l : List ℚ) (hv : v ∈ l) :
    |v| ≤ maxAbsFloored l :=
  le_trans (mem_le_pyMax (l.map (fun w => |w|)) 1e-10
    (List.mem_map_of_mem _ hv)) (le_max_left _ _)

lemma floor_le_maxAbsFloored (l : List ℚ) : (1e-10 : ℚ) ≤ maxAbsFloored l :=
  le_max_right _ _

/-! ### Concrete fixtures used by witnesses and counterexamples -/

def geo0 : Geo := ⟨fun _ _ => 0, fun _ _ => 1, fun _ _ => 0⟩

def nodeA : Node := ⟨1, 0, 0, {}, {}, {}⟩

def nodeB : Node := ⟨2, 1, 0, {}, {}, {}⟩

/-! ### Claim C4 — default station sampling -/

/-- Claim C4: at the default station count (21) the interpolator succeeds;
the station list and the three force sequences all have length 21, the
stations are `x = i*L/20` for `i = 0..20`, and each force sample equals the
three-branch closed form of the spec (with `a = startT*L`, `b = endT*L`). -/
theorem C4_default_station_sampling (N1 V1 M1 L qx qy sT eT : ℚ)
    (hL : 0 < L) :
    interpolate_stations N1 V1 M1 L qx qy sT eT NUM_STATIONS =
      some (stationData N1 V1 M1 L qx qy sT eT NUM_STATIONS) ∧
    (stationData N1 V1 M1 L qx qy sT eT NUM_STATIONS).1.length = 21 ∧
    (stationData N1 V1 M1 L qx qy sT eT NUM_STATIONS).2.1.length = 21 ∧
    (stationData N1 V1 M1 L qx qy sT eT NUM_STATIONS).2.2.1.length = 21 ∧
    (stationData N1 V1 M1 L qx qy sT eT NUM_STATIONS).2.2.2.length = 21 ∧
    (∀ i : ℕ, i < 21 →
      (stationData N1 V1 M1 L qx qy sT eT NUM_STATIONS).1.getD i 0 =
        (i : ℚ) * L / 20 ∧
      (stationData N1 V1 M1 L qx qy sT eT NUM_STATIONS).2.1.getD i 0 =
        (if (i : ℚ) * L / 20 < sT * L then N1
         else if (i : ℚ) * L / 20 ≤ eT * L then
           N1 + qx * ((i : ℚ) * L / 20 - sT * L)
         else N1 + qx * (eT * L - sT * L)) ∧
      (stationData N1 V1 M1 L qx qy sT eT NUM_STATIONS).2.2.1.getD i 0 =
        (if (i : ℚ) * L / 20 < sT * L then V1
         else if (i : ℚ) * L / 20 ≤ eT * L then
           V1 + qy * ((i : ℚ) * L / 20 - sT * L)
         else V1 + qy * (eT * L - sT * L)) ∧
      (stationData N1 V1 M1 L qx qy sT eT NUM_STATIONS).2.2.2.getD i 0 =
        (if (i : ℚ) * L / 20 < sT * L then M1 + V1 * ((i : ℚ) * L / 20)
         else if (i : ℚ) * L / 20 ≤ eT * L then
           M1 + V1 * ((i : ℚ) * L / 20) +
             qy * ((i : ℚ) * L / 20 - sT * L) ^ 2 / 2
         else
           M1 + V1 * ((i : ℚ) * L / 20) + qy * (eT * L - sT * L) *
             ((i : ℚ) * L / 20 - sT * L - (eT * L - sT * L) / 2))) := by
  have hguard : ¬ ((NUM_STATIONS : ℚ) - 1 = 0) := by
    norm_num [NUM_STATIONS]
  have hlen := stationData_lengths N1 V1 M1 L qx qy sT eT NUM_STATIONS
  refine ⟨by simp [interpolate_stations, hguard], hlen.1, hlen.2.1,
    hlen.2.2.1, hlen.2.2.2, ?_⟩
  intro i hi
  have hi' : i < NUM_STATIONS := hi
  have hg := stationData_getD N1 V1 M1 L qx qy sT eT NUM_STATIONS i hi'
  have hx : ((i : ℚ) / ((NUM_STATIONS : ℚ) - 1)) * L = (i : ℚ) * L / 20 := by
    norm_num [NUM_STATIONS]
    ring
  rw [hg.1, hg.2.1, hg.2.2.1, hg.2.2.2, hx]
  simp only [forcesAt, beforeForces, insideForces, afterForces]
  refine ⟨by trivial, ?_, ?_, ?_⟩ <;> split_ifs <;> ring

/-- Witness for C4 at `L = 1` (hypothesis `0 < L` discharged). -/
theorem C4_witness :
    interpolate_stations 0 0 0 1 0 0 0 1 NUM_STATIONS =
      some (stationData 0 0 0 1 0 0 0 1 NUM_STATIONS) :=
  (C4_default_station_sampling 0 0 0 1 0 0 0 1 (by norm_num)).1

/-! ### Claim C5 — continuity at the load-zone boundaries -/

/-- Claim C5: the three branch formulas agree exactly at `x = a` (before
vs. inside) and at `x = b` (inside vs. after), for each of N, V, M. -/
theorem C5_boundary_continuity (N1 V1 M1 qx qy L sT eT : ℚ) (hL : 0 < L)
    (h0 : 0 ≤ sT) (h1 : sT ≤ eT) (h2 : eT ≤ 1) :
    beforeForces N1 V1 M1 (sT * L) =
      insideForces N1 V1 M1 qx qy (sT * L) (sT * L) ∧
    insideForces N1 V1 M1 qx qy (sT * L) (eT * L) =
      afterForces N1 V1 M1 qx qy (sT * L) (eT * L) (eT * L) := by
  constructor <;>
    · simp only [beforeForces, insideForces, afterForces, Prod.mk.injEq]
      refine ⟨by ring, by ring, by ring⟩

/-- Witness for C5 at concrete parameters. -/
theorem C5_witness :
    beforeForces 1 2 3 ((0 : ℚ) * 5) =
      insideForces 1 2 3 4 6 ((0 : ℚ) * 5) ((0 : ℚ) * 5) ∧
    insideForces 1 2 3 4 6 ((0 : ℚ) * 5) ((1 : ℚ) * 5) =
      afterForces 1 2 3 4 6 ((0 : ℚ) * 5) ((1 : ℚ) * 5) ((1 : ℚ) * 5) :=
  C5_boundary_continuity 1 2 3 4 6 5 0 1 (by norm_num) (by norm_num)
    (by norm_num) (by norm_num)

/-! ### Claim C6 — full-span equivalence of the load synthesizer -/

/-- Claim C6: at the full span (`startT = 0`, `endT = 1`) the synthesizer
reduces exactly to the classical fixed-end formulas
`[qx*L/2, qy*L/2, qy*L²/12, qx*L/2, qy*L/2, -qy*L²/12]`. -/
theorem C6_full_span_equivalence (L qx qy : ℚ) (hL : 0 < L) :
    subspan_equivalent_forces L qx qy 0 1 =
      ⟨qx * L / 2, qy * L / 2, qy * L ^ 2 / 12,
        qx * L / 2, qy * L / 2, -(qy * L ^ 2 / 12)⟩ := by
  have hL0 : L ≠ 0 := ne_of_gt hL
  simp only [subspan_equivalent_forces, hermite_integrals, Vec6.mk.injEq]
  refine ⟨?_, ?_, ?_, ?_, ?_, ?_⟩ <;> (field_simp; try ring) <;>
    norm_num

/-- Witness for C6 at `L = 2`, `qx = 3`, `qy = 5`. -/
theorem C6_witness :
    subspan_equivalent_forces 2 3 5 0 1 =
      ⟨3 * 2 / 2, 5 * 2 / 2, 5 * 2 ^ 2 / 12,
        3 * 2 / 2, 5 * 2 / 2, -(5 * 2 ^ 2 / 12)⟩ :=
  C6_full_span_equivalence 2 3 5 (by norm_num)

/-! ### Claim C9 — totality of the interpolator in the station count -/

/-- Claim C9 (amended): the interpolator fails (division by zero) exactly at
`num_stations = 1`; for every `num_stations ≥ 2` it succeeds and returns
four lists each of length exactly `num_stations`.  (At `num_stations = 0`
the loop body never runs, so it succeeds with four empty lists — see the
counterexample.) -/
theorem C9_station_count_totality (N1 V1 M1 L qx qy sT eT : ℚ) (num : ℕ) :
    (num = 1 → interpolate_stations N1 V1 M1 L qx qy sT eT num = none) ∧
    (2 ≤ num →
      interpolate_stations N1 V1 M1 L qx qy sT eT num =
        some (stationData N1 V1 M1 L qx qy sT eT num) ∧
      (stationData N1 V1 M1 L qx qy sT eT num).1.length = num ∧
      (stationData N1 V1 M1 L qx qy sT eT num).2.1.length = num ∧
      (stationData N1 V1 M1 L qx qy sT eT num).2.2.1.length = num ∧
      (stationData N1 V1 M1 L qx qy sT eT num).2.2.2.length = num) := by
  constructor
  · intro h
    subst h
    simp [interpolate_stations]
  · intro h
    have h2 : (2 : ℚ) ≤ (num : ℚ) := by exact_mod_cast h
    have hguard : ¬ ((num : ℚ) - 1 = 0) := by
      intro habs
      have : (num : ℚ) = 1 := by linarith
      linarith
    have hlen := stationData_lengths N1 V1 M1 L qx qy sT eT num
    exact ⟨by simp [interpolate_stations, hguard], hlen.1, hlen.2.1,
      hlen.2.2.1, hlen.2.2.2⟩

/-- Witness for C9: the theorem applied at `num = 1` and `num = 3`. -/
theorem C9_witness :
    interpolate_stations 0 0 0 1 0 0 0 1 1 = none ∧
    interpolate_stations 0 0 0 1 0 0 0 1 3 =
      some (stationData 0 0 0 1 0 0 0 1 3) ∧
    (stationData 0 0 0 1 0 0 0 1 3).1.length = 3 :=
  ⟨(C9_station_count_totality 0 0 0 1 0 0 0 1 1).1 rfl,
    ((C9_station_count_totality 0 0 0 1 0 0 0 1 3).2 (by norm_num)).1,
    ((C9_station_count_totality 0 0 0 1 0 0 0 1 3).2 (by norm_num)).2.1⟩

/-- Counterexample for C9 as stated: the interpolator is also total at
`num_stations = 0` (the loop never runs), returning four empty lists — it is
not "only total for station counts of at least 2". -/
theorem C9_counterexample :
    interpolate_stations 0 0 0 1 0 0 0 1 0 = some ([], [], [], []) := by
  have hguard : ¬ ((((0 : ℕ) : ℚ)) - 1 = 0) := by norm_num
  simp [interpolate_stations, hguard, stationData]

/-! ### Claim C10 — distributed-load routing -/

/-- `True` exactly on the engine's native full-span distributed-load
primitive. -/
def isEleLoadEntity : Entity → Bool
  | .eleLoad .. => true
  | _ => false

/-- Claim C10 (amended): the load phase emits the single native full-span
primitive exactly when `startT ≤ 0` and `endT ≥ 1`, and two synthesized
point loads exactly when `startT > 0` or `endT < 1`; no range validation or
clamping happens in either case. -/
theorem C10_load_routing (geo : Geo) (n1 n2 : Node) (b : Beam)
    (dl : DistLoad) :
    ((distLoadEmissions geo n1 n2 b dl).map isEleLoadEntity = [true] ↔
      dl.startT ≤ 0 ∧ 1 ≤ dl.endT) ∧
    ((distLoadEmissions geo n1 n2 b dl).map isEleLoadEntity =
        [false, false] ↔
      (0 < dl.startT ∨ dl.endT < 1)) := by
  have hm : (distLoadEmissions geo n1 n2 b dl).map isEleLoadEntity =
      if dl.startT ≤ 0 ∧ 1 ≤ dl.endT then [true] else [false, false] := by
    simp only [distLoadEmissions]
    split_ifs <;> simp [isEleLoadEntity]
  rw [hm]
  by_cases h : dl.startT ≤ 0 ∧ 1 ≤ dl.endT
  · rw [if_pos h]
    refine ⟨⟨fun _ => h, fun _ => rfl⟩, ?_⟩
    apply iff_of_false
    · simp
    · rw [not_or]
      exact ⟨not_lt.mpr h.1, not_lt.mpr h.2⟩
  · rw [if_neg h]
    constructor
    · apply iff_of_false
      · simp
      · exact h
    · apply iff_of_true rfl
      rcases not_and_or.mp h with h1 | h2
      · exact Or.inl (not_le.mp h1)
      · exact Or.inr (not_le.mp h2)

def dlC10 : DistLoad := ⟨0, 1, -(1 / 2), 9 / 10, false⟩

def beamC10 : Beam := ⟨1, 1, 2, 1, ⟨1, 1⟩, {}, some dlC10⟩

/-- Counterexample for C10 as stated: an out-of-range span with
`startT = -1/2 < 0` (and `endT = 9/10`) is NOT treated as a full-span load;
it is passed to the equivalent-load synthesizer (two point loads, no
`eleLoad`). -/
theorem C10_counterexample :
    dlC10.startT < 0 ∧
    (distLoadEmissions geo0 nodeA nodeB beamC10 dlC10).map isEleLoadEntity =
      [false, false] := by
  refine ⟨by norm_num [dlC10], ?_⟩
  have hcond : ¬ (dlC10.startT ≤ 0 ∧ 1 ≤ dlC10.endT) := by
    intro h
    have := h.2
    norm_num [dlC10] at this
  simp [distLoadEmissions, hcond, isEleLoadEntity]

/-! ### Claim C1 — sign-convention correction in the extractor -/

/-- Claim C1: whenever the extractor produces a force record for a beam, the
corrected end forces relate to the raw engine end forces
`[N1, V1, M1, N2, V2, M2]` by
`corrected = [raw[0], raw[1], -raw[2], -raw[3], -raw[4], raw[5]]`. -/
theorem C1_sign_convention (geo : Geo) (es : EngineState)
    (lookN : ℕ → Option Node) (b : Beam) (r : BeamForces)
    (h : beamRecord geo es lookN b = some r) :
    r.N1 = (es.eleForce b.id).v0 ∧
    r.V1 = (es.eleForce b.id).v1 ∧
    r.M1 = -(es.eleForce b.id).v2 ∧
    r.N2 = -(es.eleForce b.id).v3 ∧
    r.V2 = -(es.eleForce b.id).v4 ∧
    r.M2 = (es.eleForce b.id).v5 := by
  simp only [beamRecord] at h
  split at h
  · exact absurd h (by simp)
  · split at h
    · exact absurd h (by simp)
    · rw [Option.some_inj] at h
      subst h
      exact ⟨rfl, rfl, rfl, rfl, rfl, rfl⟩

def esW : EngineState :=
  ⟨fun _ => (0, 0, 0), fun _ => (0, 0, 0), fun _ => ⟨1, 2, 3, 4, 5, 6⟩⟩

def lkW : ℕ → Option Node := lookupNode [nodeA, nodeB]

def beamW : Beam := ⟨7, 1, 2, 1, ⟨1, 1⟩, {}, none⟩

/-- When the two end-node lookups succeed, the extractor's per-beam record
exists (the default 21-station interpolation never fails). -/
lemma beamRecord_eval (geo : Geo) (es : EngineState)
    (lookN : ℕ → Option Node) (b : Beam) (n1 n2 : Node)
    (hl : lookupPair lookN b = some (n1, n2)) :
    ∃ r, beamRecord geo es lookN b = some r := by
  have hint : ∀ N1 V1 M1 L qx qy sT eT : ℚ,
      interpolate_stations N1 V1 M1 L qx qy sT eT NUM_STATIONS =
        some (stationData N1 V1 M1 L qx qy sT eT NUM_STATIONS) := by
    intro N1 V1 M1 L qx qy sT eT
    have hguard : ¬ ((NUM_STATIONS : ℚ) - 1 = 0) := by
      norm_num [NUM_STATIONS]
    simp [interpolate_stations, hguard]
  simp only [beamRecord, hl, hint]
  exact ⟨_, rfl⟩

lemma lookupPair_W : lookupPair lkW beamW = some (nodeA, nodeB) := by
  simp [lookupPair, lkW, lookupNode, beamW, nodeA, nodeB]

/-- Witness for C1: the extractor applied to concrete raw end forces
`[1,2,3,4,5,6]` reports `M1 = -3`. -/
theorem C1_witness :
    (beamRecord geo0 esW lkW beamW).map BeamForces.M1 = some (-(3 : ℚ)) := by
  obtain ⟨r, h⟩ := beamRecord_eval geo0 esW lkW beamW nodeA nodeB lookupPair_W
  have hc := C1_sign_convention geo0 esW lkW beamW r h
  rw [h]
  simp [hc.2.2.1, esW]

/-! ### Claim C8 — per-quantity maxima dominate samples and the floor -/

/-- Claim C8: in every successfully extracted beam record, `maxN`, `maxV`
and `maxM` dominate the absolute value of every sampled station value of
the corresponding quantity, and each is at least the floor `1e-10`. -/
theorem C8_max_dominates (geo : Geo) (es : EngineState)
    (lookN : ℕ → Option Node) (b : Beam) (r : BeamForces)
    (h : beamRecord geo es lookN b = some r) :
    (∀ v ∈ r.normalForce, |v| ≤ r.maxN) ∧ (1e-10 : ℚ) ≤ r.maxN ∧
    (∀ v ∈ r.shearForce, |v| ≤ r.maxV) ∧ (1e-10 : ℚ) ≤ r.maxV ∧
    (∀ v ∈ r.bendingMoment, |v| ≤ r.maxM) ∧ (1e-10 : ℚ) ≤ r.maxM := by
  simp only [beamRecord] at h
  split at h
  · exact absurd h (by simp)
  · split at h
    · exact absurd h (by simp)
    · rw [Option.some_inj] at h
      subst h
      exact ⟨fun v hv => abs_le_maxAbsFloored _ hv, floor_le_maxAbsFloored _,
        fun v hv => abs_le_maxAbsFloored _ hv, floor_le_maxAbsFloored _,
        fun v hv => abs_le_maxAbsFloored _ hv, floor_le_maxAbsFloored _⟩

/-- Witness for C8 at the same concrete extraction as the C1 witness. -/
theorem C8_witness :
    (1e-10 : ℚ) ≤ ((beamRecord geo0 esW lkW beamW).map BeamForces.maxN).getD 0
    := by
  obtain ⟨r, h⟩ := beamRecord_eval geo0 esW lkW beamW nodeA nodeB lookupPair_W
  have hc := C8_max_dominates geo0 esW lkW beamW r h
  rw [h]
  simpa using hc.2.1

/-! ### Claim C7 — spring supports -/

/-- Claim C7: a node with some positive spring stiffness gets exactly one
fully-fixed auxiliary ground node at its own coordinates, three per-axis
elastic materials whose stiffness is the spring value where positive and
the rigid substitute `1e20` where zero, and one zero-length element
connecting the ground node to the node; a node with all three stiffnesses
zero gets nothing. -/
theorem C7_spring_supports (n : Node) (st : BState) :
    (n.springs.kx = 0 ∧ n.springs.ky = 0 ∧ n.springs.kr = 0 →
      emitSpringsForNode n st = st) ∧
    (0 < n.springs.kx ∨ 0 < n.springs.ky ∨ 0 < n.springs.kr →
      ((emitSpringsForNode n st).emitted = st.emitted ++
        [Entity.node (st.counter + 1) n.x n.y,
          Entity.fix (st.counter + 1) true true true,
          Entity.uniaxialMaterial (st.matCounter + 1) (springStiff n.springs.kx),
          Entity.uniaxialMaterial (st.matCounter + 2) (springStiff n.springs.ky),
          Entity.uniaxialMaterial (st.matCounter + 3) (springStiff n.springs.kr),
          Entity.zeroLength (st.counter + 2) (st.counter + 1) n.id] ∧
        (∀ k : ℚ, 0 < k → springStiff k = k) ∧
        (∀ k : ℚ, k = 0 → springStiff k = 1e20))) := by
  constructor
  · rintro ⟨h1, h2, h3⟩
    simp [emitSpringsForNode, h1, h2, h3]
  · intro h
    refine ⟨?_, fun k hk => if_pos hk, fun k hk => by rw [hk]; simp [springStiff]⟩
    simp only [emitSpringsForNode, if_pos h, emit, next, matNext]
    simp [List.append_assoc]

def nodeSpr : Node := ⟨3, 0, 0, {}, ⟨1, 0, 0⟩, {}⟩

def stW : BState := ⟨[], 200, 8000, []⟩

/-- Witness for C7 at concrete spring stiffnesses `kx = 1`, `ky = kr = 0`. -/
theorem C7_witness :
    (emitSpringsForNode nodeSpr stW).emitted = stW.emitted ++
      [Entity.node (stW.counter + 1) nodeSpr.x nodeSpr.y,
        Entity.fix (stW.counter + 1) true true true,
        Entity.uniaxialMaterial (stW.matCounter + 1)
          (springStiff nodeSpr.springs.kx),
        Entity.uniaxialMaterial (stW.matCounter + 2)
          (springStiff nodeSpr.springs.ky),
        Entity.uniaxialMaterial (stW.matCounter + 3)
          (springStiff nodeSpr.springs.kr),
        Entity.zeroLength (stW.counter + 2) (stW.counter + 1) nodeSpr.id] :=
  ((C7_spring_supports nodeSpr stW).2
    (Or.inl (by norm_num [nodeSpr]))).1

/-! ### Infrastructure for the build-trace claims (C2, C3) -/

/-- `True` on the entities of the load phase proper (`ops.load` /
`ops.eleLoad`). -/
def isLoadEntity : Entity → Bool
  | .load .. => true
  | .eleLoad .. => true
  | _ => false

/-- No load entity occurs in the list. -/
def noLoadsL (l : List Entity) : Prop :=
  ∀ e ∈ l, isLoadEntity e = false

lemma noLoadsL_append {l1 l2 : List Entity} (h1 : noLoadsL l1)
    (h2 : noLoadsL l2) : noLoadsL (l1 ++ l2) := by
  intro e he
  rcases List.mem_append.mp he with h | h
  · exact h1 e h
  · exact h2 e h

lemma noLoadsL_emit {st : BState} {e : Entity} (h : noLoadsL st.emitted)
    (he : isLoadEntity e = false) : noLoadsL (emit e st).emitted := by
  refine noLoadsL_append h ?_
  intro x hx
  rw [List.mem_singleton.mp hx]
  exact he

lemma noLoadsL_emitNodes (ns : List Node) :
    ∀ st : BState, noLoadsL st.emitted → noLoadsL (emitNodes ns st).emitted := by
  induction ns with
  | nil => exact fun st h => h
  | cons n rest ih =>
    intro st h
    exact ih _ (noLoadsL_emit h rfl)

lemma noLoadsL_emitConstraints (ns : List Node) :
    ∀ st : BState, noLoadsL st.emitted →
      noLoadsL (emitConstraints ns st).emitted := by
  induction ns with
  | nil => exact fun st h => h
  | cons n rest ih =>
    intro st h
    simp only [emitConstraints]
    split
    · exact ih _ (noLoadsL_emit h rfl)
    · exact ih _ h

lemma noLoadsL_emitSpringsForNode (n : Node) (st : BState)
    (h : noLoadsL st.emitted) : noLoadsL (emitSpringsForNode n st).emitted := by
  simp only [emitSpringsForNode]
  split
  · exact noLoadsL_emit (noLoadsL_emit (noLoadsL_emit (noLoadsL_emit
      (noLoadsL_emit (noLoadsL_emit h rfl) rfl) rfl) rfl) rfl) rfl
  · exact h

lemma noLoadsL_emitSprings (ns : List Node) :
    ∀ st : BState, noLoadsL st.emitted →
      noLoadsL (emitSprings ns st).emitted := by
  induction ns with
  | nil => exact fun st h => h
  | cons n rest ih =>
    intro st h
    exact ih _ (noLoadsL_emitSpringsForNode n st h)

lemma noLoadsL_allocReleaseNode (lookN : ℕ → Option Node)
    (beamId nodeId : ℕ) (st : BState) (h : noLoadsL st.emitted) :
    noLoadsL (allocReleaseNode lookN beamId nodeId st).1.emitted := by
  simp only [allocReleaseNode]
  cases lookN nodeId with
  | none => exact h
  | some nd => exact noLoadsL_emit (noLoadsL_emit h rfl) rfl

lemma noLoadsL_withRelease (lookN : ℕ → Option Node) (flag : Bool)
    (beamId nodeId : ℕ) (st : BState) (h : noLoadsL st.emitted) :
    noLoadsL (withRelease lookN flag beamId nodeId st).1.emitted := by
  simp only [withRelease]
  split
  · exact noLoadsL_allocReleaseNode lookN beamId nodeId st h
  · exact h

lemma noLoadsL_processBeamEnd (lookN : ℕ → Option Node) (b : Beam)
    (mat : Material) (actual1 : ℕ) (st : BState) (h : noLoadsL st.emitted) :
    noLoadsL (processBeamEnd lookN b mat actual1 st).1.emitted := by
  have h2 := noLoadsL_withRelease lookN b.endReleases.endMoment b.id b.node2
    st h
  simp only [processBeamEnd]
  rcases hr2 : withRelease lookN b.endReleases.endMoment b.id b.node2 st
    with ⟨st2, e2⟩
  rw [hr2] at h2
  cases e2 with
  | error e => exact h2
  | ok actual2 => exact noLoadsL_emit h2 rfl

lemma noLoadsL_processBeam (lookN : ℕ → Option Node)
    (lookM : ℕ → Option Material) (b : Beam) (st : BState)
    (h : noLoadsL st.emitted) :
    noLoadsL (processBeam lookN lookM b st).1.emitted := by
  have h1 := noLoadsL_withRelease lookN b.endReleases.startMoment b.id
    b.node1 st h
  simp only [processBeam]
  cases lookM b.materialId with
  | none => exact h
  | some mat =>
    rcases hr1 : withRelease lookN b.endReleases.startMoment b.id b.node1 st
      with ⟨st1, e1⟩
    rw [hr1] at h1
    cases e1 with
    | error e => exact h1
    | ok actual1 =>
      exact noLoadsL_processBeamEnd lookN b mat actual1 st1 h1

lemma noLoadsL_processBeams (lookN : ℕ → Option Node)
    (lookM : ℕ → Option Material) (bs : List Beam) :
    ∀ st : BState, noLoadsL st.emitted →
      noLoadsL (processBeams lookN lookM bs st).1.emitted := by
  induction bs with
  | nil => exact fun st h => h
  | cons b rest ih =>
    intro st h
    have hb := noLoadsL_processBeam lookN lookM b st h
    simp only [processBeams]
    rcases hpb : processBeam lookN lookM b st with ⟨st1, oe⟩
    rw [hpb] at hb
    cases oe with
    | some e => exact hb
    | none => exact ih st1 hb

/-- If the beam loop completes without an exception, every beam's material
reference resolved. -/
lemma processBeams_ok_mats (lookN : ℕ → Option Node)
    (lookM : ℕ → Option Material) (bs : List Beam) :
    ∀ st st' : BState, processBeams lookN lookM bs st = (st', none) →
      ∀ b ∈ bs, (lookM b.materialId).isSome = true := by
  induction bs with
  | nil => intro st st' _ b hb; cases hb
  | cons b rest ih =>
    intro st st' hok c hc
    simp only [processBeams] at hok
    rcases hpb : processBeam lookN lookM b st with ⟨st1, oe⟩
    rw [hpb] at hok
    cases oe with
    | some e => exact absurd (congrArg Prod.snd hok) (by simp)
    | none =>
      rcases List.mem_cons.mp hc with h | h
      · subst h
        simp only [processBeam] at hpb
        cases hm : lookM c.materialId with
        | none => rw [hm] at hpb; exact absurd (congrArg Prod.snd hpb) (by simp)
        | some m => simp
      · exact ih st1 st' hok c h

/-! ### Claim C2 — reference errors and partial models -/

lemma noLoadsL_preBeamState (inp : Input) :
    noLoadsL (preBeamState inp).emitted := by
  refine noLoadsL_emit ?_ rfl
  apply noLoadsL_emitSprings
  apply noLoadsL_emitConstraints
  apply noLoadsL_emitNodes
  intro e he
  cases he

/-- Claim C2 (amended): a beam whose material reference does not resolve
makes assembly abort with a reference error, and the abort happens before
any load entity is emitted; the node, constraint and spring entities (and
the elements of earlier beams) already sent to the engine are NOT rolled
back, so a partial model exists at abort time (see the counterexample). -/
theorem C2_reference_error_abort (geo : Geo) (inp : Input)
    (h : ∃ b ∈ inp.beams,
      lookupMaterial inp.materials b.materialId = none) :
    (build_model geo inp).2.isSome = true ∧
    noLoadsL (build_model geo inp).1.emitted := by
  by_cases hemp : inp.nodes.isEmpty = true
  · simp only [build_model, if_pos hemp]
    exact ⟨rfl, fun e he => absurd he (List.not_mem_nil e)⟩
  · simp only [build_model, if_neg hemp]
    have hb := noLoadsL_processBeams (lookupNode inp.nodes)
      (lookupMaterial inp.materials) inp.beams (preBeamState inp)
      (noLoadsL_preBeamState inp)
    rcases hpb : processBeams (lookupNode inp.nodes)
        (lookupMaterial inp.materials) inp.beams (preBeamState inp)
      with ⟨st1, oe⟩
    rw [hpb] at hb
    cases oe with
    | some e => exact ⟨rfl, hb⟩
    | none =>
      exfalso
      obtain ⟨b, hbm, hm⟩ := h
      have hs := processBeams_ok_mats (lookupNode inp.nodes)
        (lookupMaterial inp.materials) inp.beams (preBeamState inp) st1
        hpb b hbm
      rw [hm] at hs
      exact absurd hs (by simp)

def beamBad : Beam := ⟨1, 1, 1, 5, ⟨1, 1⟩, {}, none⟩

def inpC2 : Input := ⟨[nodeA], [beamBad], [], false⟩

/-- Witness for C2: the amended theorem applied to the concrete input with
a dangling material reference. -/
theorem C2_witness :
    (build_model geo0 inpC2).2.isSome = true ∧
    noLoadsL (build_model geo0 inpC2).1.emitted :=
  C2_reference_error_abort geo0 inpC2
    ⟨beamBad, by simp [inpC2], by simp [lookupMaterial, inpC2]⟩

/-- Counterexample for C2 as stated: on that same input the assembly does
abort with a reference error, but the caller node has already been emitted —
the abort does not happen "before any entity has been emitted". -/
theorem C2_counterexample :
    (build_model geo0 inpC2).2 = some (BuildErr.missingMaterial 1 5) ∧
    Entity.node 1 0 0 ∈ (build_model geo0 inpC2).1.emitted := by
  have : build_model geo0 inpC2 =
      (⟨[Entity.node 1 0 0, Entity.geomTransf false], 100, 8000, []⟩,
        some (BuildErr.missingMaterial 1 5)) := by
    simp [build_model, inpC2, preBeamState, emitNodes, emitConstraints,
      emitSprings, emitSpringsForNode, processBeams, processBeam,
      lookupMaterial, maxNodeId, nodeA, beamBad, emit]
  rw [this]
  simp

/-! ### Claim C3 — auxiliary identifiers -/

/-- Invariant on the builder state: the counter never drops below `c0`, and
every identifier it has handed out exceeds `c0`. -/
def auxInv (c0 : ℕ) (st : BState) : Prop :=
  c0 ≤ st.counter ∧ ∀ t ∈ st.aux, c0 < t

lemma auxInv_emit {c0 : ℕ} {st : BState} (e : Entity) (h : auxInv c0 st) :
    auxInv c0 (emit e st) := h

lemma auxInv_next {c0 : ℕ} {st : BState} (h : auxInv c0 st) :
    auxInv c0 (next st).2 := by
  refine ⟨Nat.le_succ_of_le h.1, ?_⟩
  intro t ht
  rcases List.mem_append.mp ht with h1 | h2
  · exact h.2 t h1
  · rw [List.mem_singleton.mp h2]
    exact Nat.lt_succ_of_le h.1

lemma auxInv_matNext {c0 : ℕ} {st : BState} (h : auxInv c0 st) :
    auxInv c0 (matNext st).2 := h

lemma auxInv_emitNodes (ns : List Node) :
    ∀ st : BState, auxInv c0 st → auxInv c0 (emitNodes ns st) := by
  induction ns with
  | nil => exact fun st h => h
  | cons n rest ih => exact fun st h => ih _ (auxInv_emit _ h)

lemma auxInv_emitConstraints (ns : List Node) :
    ∀ st : BState, auxInv c0 st → auxInv c0 (emitConstraints ns st) := by
  induction ns with
  | nil => exact fun st h => h
  | cons n rest ih =>
    intro st h
    simp only [emitConstraints]
    split
    · exact ih _ (auxInv_emit _ h)
    · exact ih _ h

lemma auxInv_emitSpringsForNode (n : Node) (st : BState)
    (h : auxInv c0 st) : auxInv c0 (emitSpringsForNode n st) := by
  simp only [emitSpringsForNode]
  split
  · constructor
    · show c0 ≤ st.counter + 1 + 1
      have := h.1
      omega
    · intro t ht
      have ht' : t ∈ st.aux ++ [st.counter + 1] ++ [st.counter + 1 + 1] := ht
      have hc := h.1
      rcases List.mem_append.mp ht' with h12 | h3
      · rcases List.mem_append.mp h12 with ha | hb
        · exact h.2 t ha
        · have := List.mem_singleton.mp hb
          omega
      · have := List.mem_singleton.mp h3
        omega
  · exact h

lemma auxInv_emitSprings (ns : List Node) :
    ∀ st : BState, auxInv c0 st → auxInv c0 (emitSprings ns st) := by
  induction ns with
  | nil => exact fun st h => h
  | cons n rest ih => exact fun st h => ih _ (auxInv_emitSpringsForNode n st h)

lemma auxInv_allocReleaseNode (lookN : ℕ → Option Node)
    (beamId nodeId : ℕ) (st : BState) (h : auxInv c0 st) :
    auxInv c0 (allocReleaseNode lookN beamId nodeId st).1 := by
  simp only [allocReleaseNode]
  cases lookN nodeId with
  | none => exact auxInv_next h
  | some nd => exact auxInv_emit _ (auxInv_emit _ (auxInv_next h))

lemma auxInv_withRelease (lookN : ℕ → Option Node) (flag : Bool)
    (beamId nodeId : ℕ) (st : BState) (h : auxInv c0 st) :
    auxInv c0 (withRelease lookN flag beamId nodeId st).1 := by
  simp only [withRelease]
  split
  · exact auxInv_allocReleaseNode lookN beamId nodeId st h
  · exact h

lemma auxInv_processBeamEnd (lookN : ℕ → Option Node) (b : Beam)
    (mat : Material) (actual1 : ℕ) (st : BState) (h : auxInv c0 st) :
    auxInv c0 (processBeamEnd lookN b mat actual1 st).1 := by
  have h2 := auxInv_withRelease lookN b.endReleases.endMoment b.id b.node2
    st h
  simp only [processBeamEnd]
  rcases hr2 : withRelease lookN b.endReleases.endMoment b.id b.node2 st
    with ⟨st2, e2⟩
  rw [hr2] at h2
  cases e2 with
  | error e => exact h2
  | ok actual2 => exact auxInv_emit _ h2

lemma auxInv_processBeam (lookN : ℕ → Option Node)
    (lookM : ℕ → Option Material) (b : Beam) (st : BState)
    (h : auxInv c0 st) : auxInv c0 (processBeam lookN lookM b st).1 := by
  have h1 := auxInv_withRelease lookN b.endReleases.startMoment b.id
    b.node1 st h
  simp only [processBeam]
  cases lookM b.materialId with
  | none => exact h
  | some mat =>
    rcases hr1 : withRelease lookN b.endReleases.startMoment b.id b.node1 st
      with ⟨st1, e1⟩
    rw [hr1] at h1
    cases e1 with
    | error e => exact h1
    | ok actual1 => exact auxInv_processBeamEnd lookN b mat actual1 st1 h1

lemma auxInv_processBeams (lookN : ℕ → Option Node)
    (lookM : ℕ → Option Material) (bs : List Beam) :
    ∀ st : BState, auxInv c0 st →
      auxInv c0 (processBeams lookN lookM bs st).1 := by
  induction bs with
  | nil => exact fun st h => h
  | cons b rest ih =>
    intro st h
    have hb := auxInv_processBeam lookN lookM b st h
    simp only [processBeams]
    rcases hpb : processBeam lookN lookM b st with ⟨st1, oe⟩
    rw [hpb] at hb
    cases oe with
    | some e => exact hb
    | none => exact ih st1 hb

lemma auxInv_emitNodalLoads (ns : List Node) :
    ∀ st : BState, auxInv c0 st → auxInv c0 (emitNodalLoads ns st) := by
  induction ns with
  | nil => exact fun st h => h
  | cons n rest ih =>
    intro st h
    simp only [emitNodalLoads]
    split
    · exact ih _ (auxInv_emit _ h)
    · exact ih _ h

lemma auxInv_foldlEmit (es : List Entity) :
    ∀ st : BState, auxInv c0 st →
      auxInv c0 (es.foldl (fun s e => emit e s) st) := by
  induction es with
  | nil => exact fun st h => h
  | cons e rest ih => exact fun st h => ih _ (auxInv_emit _ h)

lemma auxInv_processDistLoad (geo : Geo) (lookN : ℕ → Option Node)
    (b : Beam) (dl : DistLoad) (st : BState) (h : auxInv c0 st) :
    auxInv c0 (processDistLoad geo lookN b dl st).1 := by
  simp only [processDistLoad]
  split
  · exact h
  · cases lookN b.node1 with
    | none => exact h
    | some n1 =>
      cases lookN b.node2 with
      | none => exact h
      | some n2 => exact auxInv_foldlEmit _ st h

lemma auxInv_processBeamLoad (geo : Geo) (lookN : ℕ → Option Node)
    (b : Beam) (st : BState) (h : auxInv c0 st) :
    auxInv c0 (processBeamLoad geo lookN b st).1 := by
  simp only [processBeamLoad]
  cases b.distributedLoad with
  | none => exact h
  | some dl => exact auxInv_processDistLoad geo lookN b dl st h

lemma auxInv_processBeamLoads (geo : Geo) (lookN : ℕ → Option Node)
    (bs : List Beam) :
    ∀ st : BState, auxInv c0 st →
      auxInv c0 (processBeamLoads geo lookN bs st).1 := by
  induction bs with
  | nil => exact fun st h => h
  | cons b rest ih =>
    intro st h
    have hb := auxInv_processBeamLoad geo lookN b st h
    simp only [processBeamLoads]
    rcases hpb : processBeamLoad geo lookN b st with ⟨st1, oe⟩
    rw [hpb] at hb
    cases oe with
    | some e => exact hb
    | none => exact ih st1 hb

lemma auxInv_preBeamState (inp : Input) :
    auxInv (100 * maxNodeId inp.nodes) (preBeamState inp) := by
  apply auxInv_emit
  apply auxInv_emitSprings
  apply auxInv_emitConstraints
  apply auxInv_emitNodes
  exact ⟨le_refl _, fun t ht => absurd ht (List.not_mem_nil t)⟩

lemma auxInv_loadPhase (geo : Geo) (inp : Input) (st : BState)
    (h : auxInv c0 st) : auxInv c0 (loadPhase geo inp st).1 := by
  apply auxInv_processBeamLoads
  apply auxInv_emitNodalLoads
  exact auxInv_emit _ (auxInv_emit _ h)

lemma le_maxNodeId {n : Node} (ns : List Node) (h : n ∈ ns) :
    n.id ≤ maxNodeId ns :=
  mem_le_foldl_max (ns.map Node.id) 0 (List.mem_map_of_mem Node.id h)

/-- Claim C3 (amended): every auxiliary identifier handed out by the
assembler's internal counter is distinct from every caller-assigned node
identifier.  (Distinctness from caller beam identifiers does NOT hold — see
the counterexample, where a spring's zero-length element tag collides with
a beam id.) -/
theorem C3_aux_ids_disjoint (geo : Geo) (inp : Input) :
    ∀ t ∈ (build_model geo inp).1.aux, ∀ n ∈ inp.nodes, t ≠ n.id := by
  intro t ht n hn
  by_cases hemp : inp.nodes.isEmpty = true
  · simp only [build_model, if_pos hemp] at ht
    exact absurd ht (List.not_mem_nil t)
  · simp only [build_model, if_neg hemp] at ht
    have h1 := auxInv_processBeams (lookupNode inp.nodes)
      (lookupMaterial inp.materials) inp.beams (preBeamState inp)
      (auxInv_preBeamState inp)
    rcases hpb : processBeams (lookupNode inp.nodes)
        (lookupMaterial inp.materials) inp.beams (preBeamState inp)
      with ⟨st1, oe⟩
    rw [hpb] at h1 ht
    have hid : n.id ≤ maxNodeId inp.nodes := le_maxNodeId inp.nodes hn
    have hmm : maxNodeId inp.nodes ≤ 100 * maxNodeId inp.nodes :=
      Nat.le_mul_of_pos_left _ (by norm_num)
    cases oe with
    | some e =>
      have hgt := h1.2 t ht
      omega
    | none =>
      have h2 := auxInv_loadPhase geo inp st1 h1
      have hgt := h2.2 t ht
      omega

def nodeASpr : Node := ⟨1, 0, 0, {}, ⟨1, 0, 0⟩, {}⟩

def matW : Material := ⟨1, 1⟩

def inpC3w : Input := ⟨[nodeSpr], [], [], false⟩

/-- Witness for C3: on a concrete input whose spring support allocates the
auxiliary ids 301 and 302, the theorem yields `301 ≠ 3` (the single caller
node id). -/
theorem C3_witness : (301 : ℕ) ≠ nodeSpr.id :=
  C3_aux_ids_disjoint geo0 inpC3w 301
    (by
      have : build_model geo0 inpC3w =
          (⟨[Entity.node 3 0 0,
              Entity.node 301 0 0, Entity.fix 301 true true true,
              Entity.uniaxialMaterial 8001 1,
              Entity.uniaxialMaterial 8002 1e20,
              Entity.uniaxialMaterial 8003 1e20,
              Entity.zeroLength 302 301 3,
              Entity.geomTransf false, Entity.timeSeriesConstant,
              Entity.patternPlain], 302, 8003, [301, 302]⟩, none) := by
        simp [build_model, inpC3w, preBeamState, loadPhase, emitNodes,
          emitConstraints, emitSprings, emitSpringsForNode, emitNodalLoads,
          processBeams, processBeamLoads, lookupNode, maxNodeId, nodeSpr,
          springStiff, emit, next, matNext]
      rw [this]
      simp)
    nodeSpr (by simp [inpC3w])

def beamX : Beam := ⟨202, 1, 2, 1, ⟨1, 1⟩, {}, none⟩

def inpC3x : Input := ⟨[nodeASpr, nodeB], [beamX], [matW], false⟩

/-- Counterexample for C3 as stated: with caller node ids `{1, 2}` and a
beam id `202`, the spring support's zero-length element receives the
auxiliary tag `202` — an auxiliary identifier colliding with a
caller-assigned beam identifier, so the trace holds two elements with the
same engine tag. -/
theorem C3_counterexample :
    (202 : ℕ) ∈ (build_model geo0 inpC3x).1.aux ∧
    inpC3x.beams.map Beam.id = [202] ∧
    Entity.zeroLength 202 201 1 ∈ (build_model geo0 inpC3x).1.emitted ∧
    Entity.element 202 1 2 1 1 1 ∈ (build_model geo0 inpC3x).1.emitted := by
  have : build_model geo0 inpC3x =
      (⟨[Entity.node 1 0 0, Entity.node 2 1 0,
          Entity.node 201 0 0, Entity.fix 201 true true true,
          Entity.uniaxialMaterial 8001 1,
          Entity.uniaxialMaterial 8002 1e20,
          Entity.uniaxialMaterial 8003 1e20,
          Entity.zeroLength 202 201 1,
          Entity.geomTransf false,
          Entity.element 202 1 2 1 1 1,
          Entity.timeSeriesConstant, Entity.patternPlain],
        202, 8003, [201, 202]⟩, none) := by
    simp [build_model, inpC3x, preBeamState, loadPhase, emitNodes,
      emitConstraints, emitSprings, emitSpringsForNode, emitNodalLoads,
      processBeams, processBeam, processBeamEnd, withRelease,
      processBeamLoads, processBeamLoad, lookupNode, lookupMaterial,
      maxNodeId, nodeASpr, nodeB, beamX, matW, springStiff, emit, next,
      matNext]
  rw [this]
  refine ⟨by simp, by simp [inpC3x, beamX], by simp, by simp⟩

end OpenFEM
